import Mathlib

/-!
Verification of the entity-assembly and temporal-resolution pipeline of the
mail2calender ner-service.  Each definition is a shallow embedding of the
corresponding Python function; Python floats are represented by rationals,
Python strings by Lean strings (lists of unicode characters), Python dicts
with optional keys by structures with Option fields, and raised Python
exceptions by Except values.
-/

/-! ## Basic character-list utilities (Python str helpers) -/

/-- Python character-class test used by str.strip and regex \s
(space, tab, newline, carriage return). -/
def pyWS (c : Char) : Bool := c.isWhitespace

/-- Leading-whitespace removal, one side of Python str.strip. -/
def dropWS (l : List Char) : List Char := l.dropWhile pyWS

/-- Embedding of Python str.strip(): remove leading and trailing whitespace. -/
def stripChars (l : List Char) : List Char := ((dropWS l).reverse.dropWhile pyWS).reverse

/-- str.strip() on Lean strings. -/
def pyStrip (s : String) : String := String.mk (stripChars s.data)

/-- Does list l occur as a prefix of list m (character-wise)? -/
def startsWithChars : List Char → List Char → Bool
  | [], _ => true
  | _ :: _, [] => false
  | p :: ps, c :: cs => p == c && startsWithChars ps cs

/-- Embedding of Python substring search (re.search on a literal pattern):
does pat occur anywhere in l? -/
def containsChars (pat : List Char) : List Char → Bool
  | [] => startsWithChars pat []
  | c :: cs => startsWithChars pat (c :: cs) || containsChars pat cs

/-- Python s.lower(); the tokens relevant here are already lower-case
Vietnamese or ASCII, so ASCII case mapping suffices. -/
def lowerStr (s : String) : String := String.mk (s.data.map Char.toLower)

/-- Python text[2:]. -/
def strDrop2 (s : String) : String := String.mk (s.data.drop 2)

/-- Python text.startswith("##"). -/
def startsHH (s : String) : Bool :=
  match s.data with
  | '#' :: '#' :: _ => true
  | _ => false

/-- Python min(a, b) on two floats: the first argument wins ties. -/
def pymin (a b : ℚ) : ℚ := if a ≤ b then a else b

/-! ## Data model: tokens and spans (ner_model.py) -/

/-- One model-produced token with its predicted label and confidence. -/
structure Token where
  text : String
  label : String
  confidence : ℚ
deriving DecidableEq, Repr

/-- A raw entity span as built by the BIO scan in ner_model.py
(dict with keys text, type, confidence, start_pos, end_pos). -/
structure RawSpan where
  text : String
  etype : String
  confidence : ℚ
  start_pos : ℕ
  end_pos : ℕ
deriving DecidableEq, Repr

/-- Python label.startswith("B-"). -/
def labelIsB (l : String) : Bool :=
  match l.data with
  | 'B' :: '-' :: _ => true
  | _ => false

/-- Python label.startswith("I-"). -/
def labelIsI (l : String) : Bool :=
  match l.data with
  | 'I' :: '-' :: _ => true
  | _ => false

/-- Python label[2:], the entity type of a B- or I- label. -/
def labelType (l : String) : String := String.mk (l.data.drop 2)

/-- The tokenizer's reserved tokens (cls, sep, pad of the xlm-roberta
tokenizer used by NERModel), compared against in extract_entities. -/
def isSpecialToken (t : String) : Bool :=
  t == "<s>" || t == "</s>" || t == "<pad>"

/-- Python token.replace('▁', ''): drop every subword marker character. -/
def stripMark (s : String) : String := String.mk (s.data.filter (fun c => c ≠ '▁'))

/-- The BIO scan of NERModel._process_entities (ner_model.py lines 184-208):
B- closes any open span and opens a new one; a matching I- appends the token
text space-joined, advances end_pos and takes the min confidence; a
mismatched I- or an I- without an open span is inert; O closes; any other
label is inert; the still-open span is emitted at the end of the sequence. -/
def process_entities_scan (i : ℕ) (cur : Option RawSpan) (acc : List RawSpan) :
    List Token → List RawSpan
  | [] => acc ++ cur.toList
  | t :: rest =>
    if labelIsB t.label then
      process_entities_scan (i+1) (some ⟨t.text, labelType t.label, t.confidence, i, i⟩)
        (acc ++ cur.toList) rest
    else if labelIsI t.label then
      match cur with
      | some e =>
        if e.etype = labelType t.label then
          process_entities_scan (i+1)
            (some { e with text := e.text ++ " " ++ t.text,
                           confidence := pymin e.confidence t.confidence,
                           end_pos := i }) acc rest
        else process_entities_scan (i+1) (some e) acc rest
      | none => process_entities_scan (i+1) none acc rest
    else if t.label = "O" then
      process_entities_scan (i+1) none (acc ++ cur.toList) rest
    else
      process_entities_scan (i+1) cur acc rest

/-- The raw spans produced by the batch decode path (before cleaning). -/
def process_decode (ts : List Token) : List RawSpan :=
  process_entities_scan 0 none [] ts

/-- NERModel._clean_entities (ner_model.py lines 215-244): drop spans with
confidence below 0.5, strip surrounding whitespace, strip one leading "##"
subword marker, drop spans whose remaining text is empty. -/
def clean_entities : List RawSpan → List RawSpan
  | [] => []
  | e :: rest =>
    if e.confidence < mkRat 1 2 then clean_entities rest
    else
      let t := pyStrip e.text
      let t2 := if startsHH t then strDrop2 t else t
      if t2.data.isEmpty then clean_entities rest
      else { e with text := t2 } :: clean_entities rest

/-- NERModel._process_entities: BIO scan followed by _clean_entities. -/
def process_entities (ts : List Token) : List RawSpan :=
  clean_entities (process_decode ts)

/-- The BIO scan of NERModel.extract_entities (ner_model.py lines 67-107):
special tokens with a non-O label are skipped; B- opens a new span with the
'▁' marker removed; a matching I- appends the token text directly (no space)
and averages the confidences; O closes the open span. -/
def extract_entities_scan (i : ℕ) (cur : Option RawSpan) (acc : List RawSpan) :
    List Token → List RawSpan
  | [] => acc ++ cur.toList
  | t :: rest =>
    if t.label = "O" then
      extract_entities_scan (i+1) none (acc ++ cur.toList) rest
    else if isSpecialToken t.text then
      extract_entities_scan (i+1) cur acc rest
    else if labelIsB t.label then
      extract_entities_scan (i+1)
        (some ⟨stripMark t.text, labelType t.label, t.confidence, i, i⟩)
        (acc ++ cur.toList) rest
    else if labelIsI t.label then
      match cur with
      | some e =>
        if e.etype = labelType t.label then
          extract_entities_scan (i+1)
            (some { e with text := e.text ++ stripMark t.text,
                           confidence := (e.confidence + t.confidence) / 2,
                           end_pos := i }) acc rest
        else extract_entities_scan (i+1) (some e) acc rest
      | none => extract_entities_scan (i+1) none acc rest
    else
      extract_entities_scan (i+1) cur acc rest

/-- The raw spans produced by the single-text decode path
(extract_entities performs no cleaning). -/
def extract_decode (ts : List Token) : List RawSpan :=
  extract_entities_scan 0 none [] ts

/-! ## Datetime model (Python datetime, wall-clock in the configured
timezone Asia/Ho_Chi_Minh, which has a fixed +07:00 offset and no DST) -/

/-- A Python datetime value, by wall-clock components. -/
structure PyDateTime where
  year : ℕ
  month : ℕ
  day : ℕ
  hour : ℕ
  minute : ℕ
  second : ℕ
deriving DecidableEq, Repr

/-- Gregorian leap-year rule (as in Python's calendar). -/
def isLeap (y : ℕ) : Bool := y % 4 == 0 && (!(y % 100 == 0) || y % 400 == 0)

/-- Month lengths for a (non-)leap year. -/
def monthDays (leap : Bool) : List ℕ :=
  [31, if leap then 29 else 28, 31, 30, 31, 30, 31, 31, 30, 31, 30, 31]

/-- Number of days in month m of year y. -/
def daysInMonth (y m : ℕ) : ℕ := ((monthDays (isLeap y)).getD (m - 1) 31)

/-- The day after a given date (time of day unchanged). -/
def nextDay (dt : PyDateTime) : PyDateTime :=
  if dt.day < daysInMonth dt.year dt.month then { dt with day := dt.day + 1 }
  else if dt.month < 12 then { dt with month := dt.month + 1, day := 1 }
  else { dt with year := dt.year + 1, month := 1, day := 1 }

/-- Python datetime + timedelta(days=n) for n ≥ 0: exact calendar addition,
time of day unchanged (the configured timezone has no DST). -/
def addDays : PyDateTime → ℕ → PyDateTime
  | dt, 0 => dt
  | dt, n + 1 => addDays (nextDay dt) n

/-- Days from 0001-01-01 to the given civil date (proleptic Gregorian). -/
def civilToDays (y m d : ℕ) : ℕ :=
  365 * (y - 1) + (y - 1) / 4 + (y - 1) / 400 - (y - 1) / 100
    + ((monthDays (isLeap y)).take (m - 1)).sum + (d - 1)

/-- Python datetime.timestamp() for an Asia/Ho_Chi_Minh-localized datetime:
seconds since the Unix epoch, at fixed offset +07:00. -/
def toEpoch (dt : PyDateTime) : Int :=
  ((civilToDays dt.year dt.month dt.day : Int) - (civilToDays 1970 1 1 : Int)) * 86400
    + dt.hour * 3600 + dt.minute * 60 + dt.second - 7 * 3600

/-- Validity check performed by Python datetime.replace. -/
def validDate (y m d : ℕ) : Bool :=
  1 ≤ y && y ≤ 9999 && 1 ≤ m && m ≤ 12 && 1 ≤ d && d ≤ daysInMonth y m

/-! ## TimeProcessor (time_processor.py): pattern tables and resolution -/

/-- re.search of the "today" pattern "hôm nay|ngày này". -/
def searchToday (cs : List Char) : Bool :=
  containsChars "hôm nay".data cs || containsChars "ngày này".data cs

/-- re.search of the "tomorrow" pattern "ngày mai|hôm sau". -/
def searchTomorrow (cs : List Char) : Bool :=
  containsChars "ngày mai".data cs || containsChars "hôm sau".data cs

/-- re.search of the "next_week" pattern "tuần sau|tuần tới". -/
def searchNextWeek (cs : List Char) : Bool :=
  containsChars "tuần sau".data cs || containsChars "tuần tới".data cs

/-- re.search of the "next_month" pattern "tháng sau|tháng tới". -/
def searchNextMonth (cs : List Char) : Bool :=
  containsChars "tháng sau".data cs || containsChars "tháng tới".data cs

/-- The character class [h:giờ] of the "day_time" pattern
(a regex character class, matching any single one of these characters). -/
def isDayTimeClass (c : Char) : Bool :=
  c == 'h' || c == ':' || c == 'g' || c == 'i' || c == 'ờ'

/-- Digit value of an ASCII digit character. -/
def digitVal (c : Char) : ℕ := c.toNat - 48

/-- The trailing group (\d{0,2}) of the "day_time" pattern: up to two
digits, greedily; the empty match yields minute 0 (int on "" guard). -/
def takeMinutes : List Char → ℕ
  | a :: b :: _ =>
    if a.isDigit then (if b.isDigit then 10 * digitVal a + digitVal b else digitVal a) else 0
  | [a] => if a.isDigit then digitVal a else 0
  | [] => 0

/-- Attempt to match the "day_time" pattern (\d{1,2})[h:giờ](\d{0,2}) at the
head of the list, with the regex's greedy-then-backtrack choice of one or
two digits; returns (hour, minute) groups on success. -/
def dayTimeHere : List Char → Option (ℕ × ℕ)
  | c₁ :: c₂ :: c₃ :: rest =>
    if c₁.isDigit && c₂.isDigit && isDayTimeClass c₃ then
      some (10 * digitVal c₁ + digitVal c₂, takeMinutes rest)
    else if c₁.isDigit && isDayTimeClass c₂ then
      some (digitVal c₁, takeMinutes (c₃ :: rest))
    else none
  | [c₁, c₂] => if c₁.isDigit && isDayTimeClass c₂ then some (digitVal c₁, 0) else none
  | _ => none

/-- re.search for "day_time": leftmost position at which the pattern
matches, returning the (hour, minute) groups. -/
def dayTimeFind : List Char → Option (ℕ × ℕ)
  | [] => none
  | c :: cs =>
    match dayTimeHere (c :: cs) with
    | some r => some r
    | none => dayTimeFind cs

/-- The optional year group (?:/(\d{4}|\d{2}))? of the "date_time" pattern:
a slash followed by exactly-four or else two digits, if present. -/
def dateYearOpt : List Char → Option ℕ
  | '/' :: a :: b :: c :: d :: _ =>
    if a.isDigit && b.isDigit && c.isDigit && d.isDigit then
      some (1000 * digitVal a + 100 * digitVal b + 10 * digitVal c + digitVal d)
    else if a.isDigit && b.isDigit then some (10 * digitVal a + digitVal b)
    else none
  | '/' :: a :: b :: _ =>
    if a.isDigit && b.isDigit then some (10 * digitVal a + digitVal b) else none
  | _ => none

/-- The month group of "date_time" after the first slash: one or two digits
(greedy), then the optional year group; yields (month, year?). -/
def dateMonthHere : List Char → Option (ℕ × Option ℕ)
  | c₁ :: c₂ :: rest =>
    if c₁.isDigit && c₂.isDigit then some (10 * digitVal c₁ + digitVal c₂, dateYearOpt rest)
    else if c₁.isDigit then some (digitVal c₁, dateYearOpt (c₂ :: rest))
    else none
  | [c₁] => if c₁.isDigit then some (digitVal c₁, none) else none
  | [] => none

/-- Attempt to match "date_time" (\d{1,2})/(\d{1,2})(?:/(\d{4}|\d{2}))? at
the head of the list; returns the (day, month, year?) groups. -/
def dateHere : List Char → Option (ℕ × ℕ × Option ℕ)
  | c₁ :: c₂ :: '/' :: rest =>
    if c₁.isDigit && c₂.isDigit then
      (dateMonthHere rest).map (fun p => (10 * digitVal c₁ + digitVal c₂, p.1, p.2))
    else if c₁.isDigit then
      (dateMonthHere ('/' :: rest)).map (fun p => (digitVal c₁, p.1, p.2))
    else none
  | c₁ :: '/' :: rest =>
    if c₁.isDigit then (dateMonthHere rest).map (fun p => (digitVal c₁, p.1, p.2)) else none
  | _ => none

/-- re.search for "date_time": leftmost matching position. -/
def dateFind : List Char → Option (ℕ × ℕ × Option ℕ)
  | [] => none
  | c :: cs =>
    match dateHere (c :: cs) with
    | some r => some r
    | none => dateFind cs

/-- An entity as handed to the temporal stages: the cleaned span fields
plus the optional keys that time and recurrence processing may add. -/
structure TEntity where
  text : String
  etype : String
  confidence : ℚ
  normalized_time : Option PyDateTime
  timestamp : Option Int
deriving DecidableEq, Repr

/-- Attach the normalized-time keys, as entity.update(...) does. -/
def attachTime (e : TEntity) (dt : PyDateTime) : TEntity :=
  { e with normalized_time := some dt, timestamp := some (toEpoch dt) }

/-- TimeProcessor.process_time_entity (time_processor.py lines 23-87).
The reference instant `now` (datetime.now in the configured timezone) and
the fuzzy fallback parser (dateutil parser.parse with fuzzy=True, an
external collaborator whose failure — a raised ValueError, caught by the
except clause — is modelled as none) are parameters.  Pattern branches are
tried in source order; ValueError from datetime.replace on out-of-range
components is caught and yields the unchanged entity. -/
def process_time_entity (fuzzy : String → Option PyDateTime) (now : PyDateTime)
    (e : TEntity) : TEntity :=
  if !(e.etype == "TIME" || e.etype == "DATE") then e
  else
    let text := lowerStr e.text
    if searchToday text.data then attachTime e now
    else if searchTomorrow text.data then attachTime e (addDays now 1)
    else if searchNextWeek text.data then attachTime e (addDays now 7)
    else if searchNextMonth text.data then attachTime e (addDays now 30)
    else
      match dayTimeFind text.data with
      | some (h, m) =>
        if h ≤ 23 && m ≤ 59 then attachTime e { now with hour := h, minute := m } else e
      | none =>
        match dateFind text.data with
        | some (d, mo, yOpt) =>
          let y₀ := yOpt.getD now.year
          let y := if y₀ < 100 then y₀ + 2000 else y₀
          if validDate y mo d then attachTime e { now with year := y, month := mo, day := d }
          else e
        | none =>
          match fuzzy text with
          | some dt => attachTime e dt
          | none => e

/-- Modelled from the spec: the claim's "calendar-month increment (month
component incremented, with year rollover)"; used only to compare the
source's 30-day offset against the claimed behaviour. -/
def calendarMonthIncrement (dt : PyDateTime) : PyDateTime :=
  if dt.month = 12 then { dt with year := dt.year + 1, month := 1 }
  else { dt with month := dt.month + 1 }

/-! ## RecurringEventProcessor (recurring_events.py) -/

/-- Recurrence frequency constants (dateutil DAILY/WEEKLY/MONTHLY/YEARLY). -/
inductive Freq
  | daily
  | weekly
  | monthly
  | yearly
deriving DecidableEq, Repr

/-- Match of the pattern "(mỗi|hàng)\s+kw" at the head of the list:
either quantifier word, then one or more whitespace characters, then kw. -/
def freqPatHere (kw : List Char) (cs : List Char) : Bool :=
  (startsWithChars "mỗi".data cs && wsThenKw kw (cs.drop "mỗi".data.length)) ||
  (startsWithChars "hàng".data cs && wsThenKw kw (cs.drop "hàng".data.length))
where
  /-- One or more whitespace characters followed by kw (regex \s+kw). -/
  wsThenKw (kw : List Char) : List Char → Bool
    | [] => false
    | c :: cs => pyWS c && wsRestKw kw cs
  /-- Remaining whitespace then kw, after the first mandatory \s. -/
  wsRestKw (kw : List Char) : List Char → Bool
    | [] => startsWithChars kw []
    | c :: cs => if pyWS c then wsRestKw kw cs else startsWithChars kw (c :: cs)

/-- re.search of a recurring_patterns entry: the "(mỗi|hàng)\s+kw" pattern
anywhere in the text. -/
def freqSearch (kw : List Char) : List Char → Bool
  | [] => freqPatHere kw []
  | c :: cs => freqPatHere kw (c :: cs) || freqSearch kw cs

/-- The recurring_patterns table in its declared (dict-insertion) order:
daily, weekly, monthly, yearly, with each entry's keyword. -/
def recurring_patterns : List (String × String × Freq) :=
  [("daily", "ngày", .daily), ("weekly", "tuần", .weekly),
   ("monthly", "tháng", .monthly), ("yearly", "năm", .yearly)]

/-- Match of a weekday pattern "vn₁\s+vn₂|en": the two-word Vietnamese
name (with \s+ between the words) anywhere, or the English name anywhere. -/
def weekdaySearch (vn₁ vn₂ en : String) (cs : List Char) : Bool :=
  vnSearch cs || containsChars en.data cs
where
  vnSearch : List Char → Bool
    | [] => false
    | c :: cs =>
      (startsWithChars vn₁.data (c :: cs) &&
        freqPatHere.wsThenKw vn₂.data ((c :: cs).drop vn₁.data.length)) || vnSearch cs

/-- The weekday_patterns table in declared order. -/
def weekday_patterns : List (String × (List Char → Bool)) :=
  [("monday", weekdaySearch "thứ" "hai" "monday"),
   ("tuesday", weekdaySearch "thứ" "ba" "tuesday"),
   ("wednesday", weekdaySearch "thứ" "tư" "wednesday"),
   ("thursday", weekdaySearch "thứ" "năm" "thursday"),
   ("friday", weekdaySearch "thứ" "sáu" "friday"),
   ("saturday", weekdaySearch "thứ" "bảy" "saturday"),
   ("sunday", weekdaySearch "chủ" "nhật" "sunday")]

/-- The weekday scan inside detect_recurrence: every table entry is tried
and each match overwrites recurrence["weekday"], so the last match wins. -/
def scanWeekdays (tbl : List (String × (List Char → Bool))) (cs : List Char) :
    Option String :=
  tbl.foldl (fun acc p => if p.2 cs then some p.1 else acc) none

/-- A recurrence descriptor as returned by detect_recurrence: the dict
{"type", "frequency"} with the optional "weekday" key. -/
structure RecurDesc where
  rtype : String
  frequency : Freq
  weekday : Option String
deriving DecidableEq, Repr

/-- RecurringEventProcessor.detect_recurrence (recurring_events.py lines
33-58), with the weekday table a parameter: the text is lower-cased, the
frequency table is scanned in declared order, the first matching frequency
returns a descriptor augmented with the weekday scan; no frequency match
returns None without consulting the weekday table. -/
def detect_recurrence_with (wdTbl : List (String × (List Char → Bool)))
    (text : String) : Option RecurDesc :=
  let cs := (lowerStr text).data
  match recurring_patterns.find? (fun p => freqSearch p.2.1.data cs) with
  | some p => some ⟨p.1, p.2.2, scanWeekdays wdTbl cs⟩
  | none => none

/-- detect_recurrence with the source's weekday_patterns table. -/
def detect_recurrence (text : String) : Option RecurDesc :=
  detect_recurrence_with weekday_patterns text

/-- Python exceptions relevant to the recurrence stage. -/
inductive PyExc
  | nameError
  | keyError
  | attributeError
deriving DecidableEq, Repr

/-- A recurrence dict as passed to generate_rrule; a missing "frequency"
or "weekday" key is none (a malformed descriptor lacks "frequency"). -/
structure RecurDict where
  rtype : String
  frequency : Option Freq
  weekday : Option String
deriving DecidableEq, Repr

/-- RecurringEventProcessor.generate_rrule (recurring_events.py lines
60-90).  The dateutil rrule construction and its string rendering are an
external collaborator, passed as `lib` (which may itself raise, e.g. the
AttributeError from getattr(rrule, weekday.upper()) — the rrule class has
no such attributes — or from rule._str()).  The try body first evaluates
recurrence["frequency"], raising KeyError when the key is absent.  The
except handler evaluates `logger`, a name never defined or imported in
recurring_events.py, so every caught exception turns into a raised
NameError instead of the intended `return None`. -/
def generate_rrule (lib : Freq → Option String → Except PyExc String)
    (rec : RecurDict) (start : PyDateTime) : Except PyExc (Option String) :=
  let tryBody : Except PyExc String :=
    match rec.frequency with
    | none => Except.error PyExc.keyError
    | some f => lib f rec.weekday
  match start, tryBody with
  | _, Except.ok s => Except.ok (some s)
  | _, Except.error _ => Except.error PyExc.nameError

/-- An entity as seen by process_recurring_time: the recurrence stage adds
the optional "recurrence" dict. -/
structure REntity where
  text : String
  etype : String
  confidence : ℚ
  normalized_time : Option PyDateTime
  timestamp : Option Int
  recurrence : Option (String × String × List PyDateTime)
deriving DecidableEq, Repr

/-- RecurringEventProcessor.process_recurring_time (recurring_events.py
lines 111-138): entities without "normalized_time" pass through; otherwise
detect_recurrence runs and, on a detected pattern, generate_rrule; a raised
exception propagates (there is no try in this function).  `nxt` stands for
get_next_occurrences on the produced rule string. -/
def process_recurring_time (lib : Freq → Option String → Except PyExc String)
    (nxt : String → List PyDateTime) (e : REntity) : Except PyExc REntity :=
  match e.normalized_time with
  | none => Except.ok e
  | some nt =>
    match detect_recurrence e.text with
    | none => Except.ok e
    | some rec =>
      match generate_rrule lib ⟨rec.rtype, some rec.frequency, rec.weekday⟩ nt with
      | Except.error ex => Except.error ex
      | Except.ok none => Except.ok e
      | Except.ok (some rs) =>
        Except.ok { e with recurrence := some (rec.rtype, rs, nxt rs) }

/-! ## RateLimiter (rate_limiter.py) -/

/-- The redis sorted set backing one caller's rate-limit key: the members
str(t) with score t, kept as the list of distinct scores in insertion
order. -/
def zremrangebyscore (lo hi : Int) (s : List Int) : List Int :=
  s.filter (fun t => !(lo ≤ t && t ≤ hi))

/-- ZADD key {str(now): now}: adding an already-present member only
rewrites its (identical) score. -/
def zadd (s : List Int) (now : Int) : List Int :=
  if now ∈ s then s else s ++ [now]

/-- One RateLimiter.is_allowed call (rate_limiter.py lines 60-89): the
pipeline removes timestamps with score in [0, now - window], counts the
remaining members (before adding the current request), adds the current
timestamp, and admits iff the count is at most burst_limit. -/
def is_allowed (window burst_limit : Int) (s : List Int) (now : Int) :
    Bool × List Int :=
  let s₁ := zremrangebyscore 0 (now - window) s
  (decide ((s₁.length : Int) ≤ burst_limit), zadd s₁ now)

/-- A sequence of admission checks from one caller, returning the decision
for each request timestamp in order. -/
def run_limiter (window burst_limit : Int) (s : List Int) : List Int → List Bool
  | [] => []
  | t :: ts =>
    let r := is_allowed window burst_limit s t
    r.1 :: run_limiter window burst_limit r.2 ts

/-- Python int() on a float/rational: truncation toward zero, which for an
exact rational num/den is T-division of the numerator by the denominator.
Used for burst_limit = int(rate_limit * burst_factor). -/
def pyIntTrunc (q : ℚ) : Int := q.num.tdiv (q.den : Int)

/-- RateLimiter.__init__ (rate_limiter.py lines 41-43):
burst_limit = int(requests_per_minute * burst_factor). -/
def burst_limit_cfg (requests_per_minute : ℕ) (burst_factor : ℚ) : Int :=
  pyIntTrunc (requests_per_minute * burst_factor)

/-! ## Predicates used in the span-invariant and refinement statements -/

/-- A raw span is well-formed with respect to the token sequence it was
decoded from: ordered indices, and its type is the type of the B- label at
its start position. -/
def SpanInv (full : List Token) (e : RawSpan) : Prop :=
  e.start_pos ≤ e.end_pos ∧
  ∃ t, full[e.start_pos]? = some t ∧ labelIsB t.label = true ∧ labelType t.label = e.etype

/-- The extract_entities variant of SpanInv: additionally, its start and
end positions carry non-special tokens. -/
def SpanInvX (full : List Token) (e : RawSpan) : Prop :=
  e.start_pos ≤ e.end_pos ∧
  (∃ t, full[e.start_pos]? = some t ∧ labelIsB t.label = true ∧
    labelType t.label = e.etype ∧ isSpecialToken t.text = false) ∧
  (∃ t, full[e.end_pos]? = some t ∧ isSpecialToken t.text = false)

/-- Positional agreement of two raw spans: same type and token positions
(texts and confidences may differ between the two decode paths). -/
def spanAligned (a b : RawSpan) : Prop :=
  a.etype = b.etype ∧ a.start_pos = b.start_pos ∧ a.end_pos = b.end_pos

/-- Positional agreement of the two scanners' open-span states. -/
def optAligned : Option RawSpan → Option RawSpan → Prop
  | none, none => True
  | some a, some b => spanAligned a b
  | _, _ => False

/-! ## List lemmas for the cleaner's strip operation -/

theorem dropWhile_dropWhile (p : Char → Bool) :
    ∀ l : List Char, List.dropWhile p (List.dropWhile p l) = List.dropWhile p l
  | [] => rfl
  | c :: l => by
    by_cases h : p c
    · simp [List.dropWhile_cons, h, dropWhile_dropWhile p l]
    · simp [List.dropWhile_cons, h]

theorem length_dropWhile (p : Char → Bool) :
    ∀ l : List Char, (List.dropWhile p l).length ≤ l.length
  | [] => le_refl _
  | c :: l => by
    by_cases h : p c
    · simp only [List.dropWhile_cons, h, if_true]
      exact le_trans (length_dropWhile p l) (Nat.le_succ _)
    · simp [List.dropWhile_cons, h]

theorem dropWhile_head_false (p : Char → Bool) (c : Char) (l : List Char)
    (h : List.dropWhile p (c :: l) = c :: l) : p c = false := by
  by_cases hp : p c
  · rw [List.dropWhile_cons, if_pos hp] at h
    have := congrArg List.length h
    simp only [List.length_cons] at this
    have := length_dropWhile p l
    omega
  · simpa using hp

theorem dropWhile_reverse_stable (p : Char → Bool) (l : List Char)
    (hl : List.dropWhile p l = l) :
    List.dropWhile p (List.dropWhile p l.reverse).reverse =
      (List.dropWhile p l.reverse).reverse := by
  have hdecomp : List.takeWhile p l.reverse ++ List.dropWhile p l.reverse = l.reverse :=
    List.takeWhile_append_dropWhile p l.reverse
  have hsplit :
      l = (List.dropWhile p l.reverse).reverse ++ (List.takeWhile p l.reverse).reverse := by
    have h := congrArg List.reverse hdecomp
    rw [List.reverse_append, List.reverse_reverse] at h
    exact h.symm
  cases hB : (List.dropWhile p l.reverse).reverse with
  | nil => simp
  | cons c m =>
    have hA : l = c :: (m ++ (List.takeWhile p l.reverse).reverse) := by
      have h := hsplit
      rw [hB] at h
      simpa using h
    have hc : p c = false := by
      apply dropWhile_head_false p c (m ++ (List.takeWhile p l.reverse).reverse)
      rw [← hA]
      exact hl
    rw [List.dropWhile_cons, if_neg (by simp [hc])]

theorem stripChars_idem (l : List Char) : stripChars (stripChars l) = stripChars l := by
  unfold stripChars dropWS
  set A := List.dropWhile pyWS l with hA
  have h₁ : List.dropWhile pyWS A = A := dropWhile_dropWhile pyWS l
  have h₂ := dropWhile_reverse_stable pyWS A h₁
  rw [h₂]
  rw [List.reverse_reverse, dropWhile_dropWhile]

theorem pyStrip_idem (s : String) : pyStrip (pyStrip s) = pyStrip s := by
  unfold pyStrip
  exact congrArg String.mk (stripChars_idem s.data)

/-! ## Quick concrete check of the batch decode-and-clean pipeline -/

theorem sanity_c1 :
    process_entities [⟨"Hà", "B-LOC", mkRat 9 10⟩, ⟨"Nội", "I-LOC", mkRat 88 100⟩] =
      [⟨"Hà Nội", "LOC", mkRat 88 100, 0, 1⟩] := by decide

/-! ## C1: the Hà Nội decode-and-clean scenario -/

/-- C1: for the token sequence [("Hà","B-LOC",0.9), ("Nội","I-LOC",0.88)],
decoding (the batch BIO scan, the only decode followed by cleaning)
followed by cleaning yields exactly one entity with text "Hà Nội"
(space-joined), type "LOC", and confidence 0.88 (min policy) or 0.89
(running-average policy); the min policy is the one in force. -/
theorem c1_ha_noi_scenario :
    (process_entities [⟨"Hà", "B-LOC", mkRat 9 10⟩, ⟨"Nội", "I-LOC", mkRat 88 100⟩]).map
        (fun e => (e.text, e.etype)) = [("Hà Nội", "LOC")] ∧
    ((process_entities [⟨"Hà", "B-LOC", mkRat 9 10⟩, ⟨"Nội", "I-LOC", mkRat 88 100⟩]).map
        RawSpan.confidence = [mkRat 88 100] ∨
      (process_entities [⟨"Hà", "B-LOC", mkRat 9 10⟩, ⟨"Nội", "I-LOC", mkRat 88 100⟩]).map
        RawSpan.confidence = [mkRat 89 100]) :=
  ⟨by decide, Or.inl (by decide)⟩

/-! ## C6: idempotence of the entity cleaner -/

/-- C6 counterexample: the cleaner is not idempotent.  For a span whose
trimmed text is "## a", one pass strips the "##" marker and leaves " a"
(with a leading space), while a second pass trims that space away, so the
outputs differ. -/
theorem c6_counterexample :
    clean_entities (clean_entities [⟨"## a", "X", mkRat 1 1, 0, 0⟩]) ≠
      clean_entities [⟨"## a", "X", mkRat 1 1, 0, 0⟩] := by decide

/-- C6 amended: the cleaner is idempotent on every list of raw spans in
which no span's trimmed text begins with the subword marker "##"
(stripping the marker can expose fresh leading whitespace or a fresh
marker, which only a second pass would remove). -/
theorem c6_amended_idempotent (l : List RawSpan)
    (h : ∀ e ∈ l, startsHH (pyStrip e.text) = false) :
    clean_entities (clean_entities l) = clean_entities l := by
  induction l with
  | nil => rfl
  | cons e l ih =>
    have he : startsHH (pyStrip e.text) = false := h e (List.mem_cons_self e l)
    have hl : ∀ x ∈ l, startsHH (pyStrip x.text) = false :=
      fun x hx => h x (List.mem_cons_of_mem e hx)
    by_cases hc : e.confidence < mkRat 1 2
    · simp only [clean_entities, if_pos hc]
      exact ih hl
    · by_cases hemp : (pyStrip e.text).data.isEmpty
      · simp only [clean_entities, if_neg hc, he, Bool.false_eq_true, if_false, hemp, if_pos]
        exact ih hl
      · simp only [clean_entities, if_neg hc, he, Bool.false_eq_true, if_false]
        rw [if_neg (by simp [hemp])]
        simp only [clean_entities, if_neg hc, pyStrip_idem, he, Bool.false_eq_true, if_false]
        rw [if_neg (by simp [hemp])]
        exact congrArg _ (ih hl)

/-- C6 amended, witness: a concrete marker-free list on which the theorem
applies. -/
theorem c6_amended_witness :
    clean_entities (clean_entities [⟨" Đà Nẵng ", "LOC", mkRat 7 10, 2, 3⟩]) =
      clean_entities [⟨" Đà Nẵng ", "LOC", mkRat 7 10, 2, 3⟩] :=
  c6_amended_idempotent [⟨" Đà Nẵng ", "LOC", mkRat 7 10, 2, 3⟩] (by decide)

/-! ## Scan invariants, decode alignment, and limiter unfolding -/

theorem mem_append_toList {P : RawSpan → Prop} {acc : List RawSpan} {cur : Option RawSpan}
    (hacc : ∀ e ∈ acc, P e) (hcur : ∀ e, cur = some e → P e) :
    ∀ e ∈ acc ++ cur.toList, P e := by
  intro e he
  rcases List.mem_append.mp he with h | h
  · exact hacc e h
  · cases cur with
    | none => simp at h
    | some c =>
      simp only [Option.toList, List.mem_singleton] at h
      exact h ▸ hcur c rfl

theorem process_scan_inv :
    ∀ (rest pre : List Token) (cur : Option RawSpan) (acc : List RawSpan),
      (∀ e ∈ acc, SpanInv (pre ++ rest) e) →
      (∀ e, cur = some e → SpanInv (pre ++ rest) e ∧ e.end_pos < pre.length) →
      ∀ e ∈ process_entities_scan pre.length cur acc rest, SpanInv (pre ++ rest) e := by
  intro rest
  induction rest with
  | nil =>
    intro pre cur acc hacc hcur e he
    simp only [process_entities_scan] at he
    exact mem_append_toList hacc (fun x hx => (hcur x hx).1) e he
  | cons t rest ih =>
    intro pre cur acc hacc hcur e he
    have hlen : (pre ++ [t]).length = pre.length + 1 := by simp
    have hfull : (pre ++ [t]) ++ rest = pre ++ t :: rest := by simp
    have hget : (pre ++ t :: rest)[pre.length]? = some t := by
      rw [List.getElem?_append_right (le_refl pre.length)]
      simp
    have key : ∀ (cur' : Option RawSpan) (acc' : List RawSpan),
        (∀ x ∈ acc', SpanInv (pre ++ t :: rest) x) →
        (∀ x, cur' = some x → SpanInv (pre ++ t :: rest) x ∧ x.end_pos < pre.length + 1) →
        e ∈ process_entities_scan (pre.length + 1) cur' acc' rest →
        SpanInv (pre ++ t :: rest) e := by
      intro cur' acc' h1 h2 hx
      have h1' : ∀ x ∈ acc', SpanInv ((pre ++ [t]) ++ rest) x := by rw [hfull]; exact h1
      have h2' : ∀ x, cur' = some x →
          SpanInv ((pre ++ [t]) ++ rest) x ∧ x.end_pos < (pre ++ [t]).length := by
        rw [hfull, hlen]; exact h2
      have := ih (pre ++ [t]) cur' acc' h1' h2' e (by rw [hlen]; exact hx)
      rwa [hfull] at this
    have hclose : ∀ x ∈ acc ++ cur.toList, SpanInv (pre ++ t :: rest) x :=
      mem_append_toList hacc (fun x hx => (hcur x hx).1)
    simp only [process_entities_scan] at he
    by_cases hB : labelIsB t.label
    · rw [if_pos hB] at he
      refine key _ _ hclose ?_ he
      intro x hx
      injection hx with hx
      subst hx
      refine ⟨⟨le_refl _, t, hget, hB, rfl⟩, Nat.lt_succ_self _⟩
    · rw [if_neg hB] at he
      by_cases hI : labelIsI t.label
      · rw [if_pos hI] at he
        cases cur with
        | none =>
          exact key none acc hacc (fun x hx => by cases hx) he
        | some c =>
          have hcc := hcur c rfl
          by_cases hty : c.etype = labelType t.label
          · simp only [if_pos hty] at he
            refine key _ _ hacc ?_ he
            intro x hx
            injection hx with hx
            subst hx
            refine ⟨⟨le_trans hcc.1.1 (le_of_lt hcc.2), ?_⟩, Nat.lt_succ_self _⟩
            rcases hcc.1.2 with ⟨u, hu, hub, hut⟩
            exact ⟨u, hu, hub, hut⟩
          · simp only [if_neg hty] at he
            refine key _ _ hacc ?_ he
            intro x hx
            injection hx with hx
            subst hx
            exact ⟨hcc.1, Nat.lt_succ_of_lt hcc.2⟩
      · rw [if_neg hI] at he
        by_cases hO : t.label = "O"
        · rw [if_pos hO] at he
          exact key none _ hclose (fun x hx => by cases hx) he
        · rw [if_neg hO] at he
          refine key _ _ hacc ?_ he
          intro x hx
          exact ⟨(hcur x hx).1, Nat.lt_succ_of_lt (hcur x hx).2⟩


theorem extract_scan_inv :
    ∀ (rest pre : List Token) (cur : Option RawSpan) (acc : List RawSpan),
      (∀ e ∈ acc, SpanInvX (pre ++ rest) e) →
      (∀ e, cur = some e → SpanInvX (pre ++ rest) e ∧ e.end_pos < pre.length) →
      ∀ e ∈ extract_entities_scan pre.length cur acc rest, SpanInvX (pre ++ rest) e := by
  intro rest
  induction rest with
  | nil =>
    intro pre cur acc hacc hcur e he
    simp only [extract_entities_scan] at he
    exact mem_append_toList hacc (fun x hx => (hcur x hx).1) e he
  | cons t rest ih =>
    intro pre cur acc hacc hcur e he
    have hlen : (pre ++ [t]).length = pre.length + 1 := by simp
    have hfull : (pre ++ [t]) ++ rest = pre ++ t :: rest := by simp
    have hget : (pre ++ t :: rest)[pre.length]? = some t := by
      rw [List.getElem?_append_right (le_refl pre.length)]
      simp
    have key : ∀ (cur' : Option RawSpan) (acc' : List RawSpan),
        (∀ x ∈ acc', SpanInvX (pre ++ t :: rest) x) →
        (∀ x, cur' = some x → SpanInvX (pre ++ t :: rest) x ∧ x.end_pos < pre.length + 1) →
        e ∈ extract_entities_scan (pre.length + 1) cur' acc' rest →
        SpanInvX (pre ++ t :: rest) e := by
      intro cur' acc' h1 h2 hx
      have h1' : ∀ x ∈ acc', SpanInvX ((pre ++ [t]) ++ rest) x := by rw [hfull]; exact h1
      have h2' : ∀ x, cur' = some x →
          SpanInvX ((pre ++ [t]) ++ rest) x ∧ x.end_pos < (pre ++ [t]).length := by
        rw [hfull, hlen]; exact h2
      have := ih (pre ++ [t]) cur' acc' h1' h2' e (by rw [hlen]; exact hx)
      rwa [hfull] at this
    have hkeep : ∀ x, cur = some x →
        SpanInvX (pre ++ t :: rest) x ∧ x.end_pos < pre.length + 1 :=
      fun x hx => ⟨(hcur x hx).1, Nat.lt_succ_of_lt (hcur x hx).2⟩
    have hclose : ∀ x ∈ acc ++ cur.toList, SpanInvX (pre ++ t :: rest) x :=
      mem_append_toList hacc (fun x hx => (hcur x hx).1)
    simp only [extract_entities_scan] at he
    by_cases hO : t.label = "O"
    · rw [if_pos hO] at he
      exact key none _ hclose (fun x hx => by cases hx) he
    · rw [if_neg hO] at he
      by_cases hsp : isSpecialToken t.text
      · rw [if_pos hsp] at he
        exact key cur acc hacc hkeep he
      · rw [if_neg hsp] at he
        have hspf : isSpecialToken t.text = false := by simpa using hsp
        by_cases hB : labelIsB t.label
        · rw [if_pos hB] at he
          refine key _ _ hclose ?_ he
          intro x hx
          injection hx with hx
          subst hx
          exact ⟨⟨le_refl _, ⟨t, hget, hB, rfl, hspf⟩, ⟨t, hget, hspf⟩⟩, Nat.lt_succ_self _⟩
        · rw [if_neg hB] at he
          by_cases hI : labelIsI t.label
          · rw [if_pos hI] at he
            cases cur with
            | none => exact key none acc hacc (fun x hx => by cases hx) he
            | some c =>
              have hcc := hcur c rfl
              by_cases hty : c.etype = labelType t.label
              · simp only [if_pos hty] at he
                refine key _ _ hacc ?_ he
                intro x hx
                injection hx with hx
                subst hx
                refine ⟨⟨le_trans hcc.1.1 (le_of_lt hcc.2), hcc.1.2.1, ⟨t, hget, hspf⟩⟩,
                  Nat.lt_succ_self _⟩
              · simp only [if_neg hty] at he
                exact key _ _ hacc (fun x hx => by injection hx with hx; subst hx; exact hcc.imp id Nat.lt_succ_of_lt) he
          · rw [if_neg hI] at he
            exact key cur acc hacc hkeep he


theorem labelIsB_ne_O {l : String} (h : labelIsB l = true) : ¬(l = "O") := by
  intro hO
  rw [hO] at h
  exact absurd h (by decide)

theorem labelIsI_ne_O {l : String} (h : labelIsI l = true) : ¬(l = "O") := by
  intro hO
  rw [hO] at h
  exact absurd h (by decide)

theorem forall2_append_toList {cur₁ cur₂ : Option RawSpan} {acc₁ acc₂ : List RawSpan}
    (hacc : List.Forall₂ spanAligned acc₁ acc₂) (hcur : optAligned cur₁ cur₂) :
    List.Forall₂ spanAligned (acc₁ ++ cur₁.toList) (acc₂ ++ cur₂.toList) := by
  refine List.rel_append hacc ?_
  cases cur₁ with
  | none =>
    cases cur₂ with
    | none => exact List.Forall₂.nil
    | some b => exact absurd hcur (by simp [optAligned])
  | some a =>
    cases cur₂ with
    | none => exact absurd hcur (by simp [optAligned])
    | some b => exact List.Forall₂.cons hcur List.Forall₂.nil

theorem scan_align :
    ∀ (rest : List Token) (i : ℕ) (cur₁ cur₂ : Option RawSpan) (acc₁ acc₂ : List RawSpan),
      (∀ t ∈ rest, isSpecialToken t.text = false) →
      optAligned cur₁ cur₂ →
      List.Forall₂ spanAligned acc₁ acc₂ →
      List.Forall₂ spanAligned (extract_entities_scan i cur₁ acc₁ rest)
        (process_entities_scan i cur₂ acc₂ rest) := by
  intro rest
  induction rest with
  | nil =>
    intro i cur₁ cur₂ acc₁ acc₂ _ hcur hacc
    simp only [extract_entities_scan, process_entities_scan]
    exact forall2_append_toList hacc hcur
  | cons t rest ih =>
    intro i cur₁ cur₂ acc₁ acc₂ hsp hcur hacc
    have hspt : isSpecialToken t.text = false := hsp t (List.mem_cons_self t rest)
    have hsp' : ∀ x ∈ rest, isSpecialToken x.text = false :=
      fun x hx => hsp x (List.mem_cons_of_mem t hx)
    have happ := forall2_append_toList hacc hcur
    simp only [extract_entities_scan, process_entities_scan]
    by_cases hB : labelIsB t.label = true
    · simp only [if_neg (labelIsB_ne_O hB), if_neg (by simp [hspt] : ¬isSpecialToken t.text = true),
        if_pos hB]
      exact ih (i+1) _ _ _ _ hsp' ⟨rfl, rfl, rfl⟩ happ
    · by_cases hI : labelIsI t.label = true
      · simp only [if_neg (labelIsI_ne_O hI), if_neg (by simp [hspt] : ¬isSpecialToken t.text = true),
          if_neg hB, if_pos hI]
        cases cur₁ with
        | none =>
          cases cur₂ with
          | none => exact ih (i+1) none none _ _ hsp' (by trivial) hacc
          | some b => exact absurd hcur (by simp [optAligned])
        | some a =>
          cases cur₂ with
          | none => exact absurd hcur (by simp [optAligned])
          | some b =>
            have hal : spanAligned a b := hcur
            by_cases hty : b.etype = labelType t.label
            · simp only [if_pos hty, if_pos (hal.1.trans hty)]
              exact ih (i+1) _ _ _ _ hsp' ⟨hal.1, hal.2.1, rfl⟩ hacc
            · simp only [if_neg hty, if_neg (fun h => hty (hal.1.symm.trans h))]
              exact ih (i+1) _ _ _ _ hsp' hal hacc
      · by_cases hO : t.label = "O"
        · simp only [if_neg hB, if_neg hI, if_pos hO]
          exact ih (i+1) none none _ _ hsp' (by trivial) happ
        · simp only [if_neg hB, if_neg hI, if_neg hO,
            if_neg (by simp [hspt] : ¬isSpecialToken t.text = true)]
          exact ih (i+1) _ _ _ _ hsp' hcur hacc


theorem run_limiter_spec :
    ∀ (rest done : List Int) (L : Int),
      List.Pairwise (fun a b => a < b) (done ++ rest) →
      (∀ a ∈ done ++ rest, ∀ b ∈ done ++ rest, a - b < 60) →
      run_limiter 60 L done rest =
        (List.range rest.length).map (fun i => decide (((done.length + i : ℕ) : Int) ≤ L)) := by
  intro rest
  induction rest with
  | nil =>
    intro done L _ _
    simp [run_limiter]
  | cons t rest ih =>
    intro done L hpw hwin
    have htmem : t ∈ done ++ t :: rest := by simp
    have hzrem : zremrangebyscore 0 (t - 60) done = done := by
      apply List.filter_eq_self.mpr
      intro d hd
      have hdm : d ∈ done ++ t :: rest := List.mem_append.mpr (Or.inl hd)
      have h1 : t - d < 60 := hwin t htmem d hdm
      simp only [Bool.not_eq_true', Bool.and_eq_false_iff, decide_eq_false_iff_not, not_le]
      omega
    have hnotmem : t ∉ done := by
      intro hmem
      have hall := (List.pairwise_append.mp hpw).2.2
      exact absurd (hall t hmem t (by simp)) (lt_irrefl t)
    have hstep : run_limiter 60 L done (t :: rest) =
        decide ((done.length : Int) ≤ L) :: run_limiter 60 L (done ++ [t]) rest := by
      simp only [run_limiter, is_allowed, hzrem, zadd, if_neg hnotmem]
    rw [hstep]
    have hpw' : List.Pairwise (fun a b => a < b) ((done ++ [t]) ++ rest) := by
      rwa [List.append_assoc, List.singleton_append]
    have hwin' : ∀ a ∈ (done ++ [t]) ++ rest, ∀ b ∈ (done ++ [t]) ++ rest, a - b < 60 := by
      rw [List.append_assoc, List.singleton_append]
      exact hwin
    rw [ih (done ++ [t]) L hpw' hwin']
    rw [List.length_cons, List.range_succ_eq_map, List.map_cons, List.map_map]
    congr 1
    apply List.map_congr_left
    intro a _
    simp only [Function.comp_apply, List.length_append, List.length_singleton]
    rw [decide_eq_decide]
    push_cast
    omega

/-! ## C2: well-formedness of every decoded raw span -/

/-- C2: for every input token sequence, every raw span emitted by either
BIO decoder (the batch scan of _process_entities and the single-text scan
of extract_entities) satisfies start_pos ≤ end_pos, and its type is the
type carried by the B- label of the token at its start position — the type
it was opened with, never changed before emission. -/
theorem c2_bio_span_invariant (ts : List Token) (e : RawSpan) :
    (e ∈ process_decode ts →
      e.start_pos ≤ e.end_pos ∧
      ∃ t, ts[e.start_pos]? = some t ∧ labelIsB t.label = true ∧
        labelType t.label = e.etype) ∧
    (e ∈ extract_decode ts →
      e.start_pos ≤ e.end_pos ∧
      ∃ t, ts[e.start_pos]? = some t ∧ labelIsB t.label = true ∧
        labelType t.label = e.etype) := by
  constructor
  · intro he
    have h := process_scan_inv ts [] none [] (by simp) (fun x hx => by cases hx) e
      (by simpa [process_decode] using he)
    rw [List.nil_append] at h
    exact h
  · intro he
    have h := extract_scan_inv ts [] none [] (by simp) (fun x hx => by cases hx) e
      (by simpa [extract_decode] using he)
    rw [List.nil_append] at h
    rcases h with ⟨hle, ⟨t, ht, hb, hty, -⟩, -⟩
    exact ⟨hle, t, ht, hb, hty⟩

/-- C2 witness: the invariant evaluated on a concrete decode. -/
theorem c2_bio_span_invariant_witness :
    (⟨"Hà", "LOC", mkRat 9 10, 0, 0⟩ : RawSpan).start_pos ≤
      (⟨"Hà", "LOC", mkRat 9 10, 0, 0⟩ : RawSpan).end_pos ∧
    ∃ t, ([⟨"Hà", "B-LOC", mkRat 9 10⟩] :
        List Token)[(⟨"Hà", "LOC", mkRat 9 10, 0, 0⟩ : RawSpan).start_pos]? = some t ∧
      labelIsB t.label = true ∧
      labelType t.label = (⟨"Hà", "LOC", mkRat 9 10, 0, 0⟩ : RawSpan).etype :=
  (c2_bio_span_invariant [⟨"Hà", "B-LOC", mkRat 9 10⟩]
    ⟨"Hà", "LOC", mkRat 9 10, 0, 0⟩).1 (by decide)

/-! ## C8: special tokens and the two decode paths -/

/-- C8 counterexample: in the batch BIO decode (_process_entities), which
performs no special-token filtering, a sequence-boundary token mislabeled
B-LOC does start a span, refuting the claim for that decode path. -/
theorem c8_counterexample_special_starts_span :
    process_decode [⟨"<s>", "B-LOC", mkRat 9 10⟩] =
      [⟨"<s>", "LOC", mkRat 9 10, 0, 0⟩] ∧
    isSpecialToken "<s>" = true :=
  ⟨by decide, by decide⟩

/-- C8 amended: in the single-text decode (extract_entities), which filters
special tokens before they can open or extend a span, no emitted span
starts or ends at a special token, regardless of the label assigned to it;
the batch decode path applies no such filter. -/
theorem c8_amended_single_path_filters (ts : List Token) (e : RawSpan)
    (he : e ∈ extract_decode ts) :
    (∀ t, ts[e.start_pos]? = some t → isSpecialToken t.text = false) ∧
    (∀ t, ts[e.end_pos]? = some t → isSpecialToken t.text = false) := by
  have h := extract_scan_inv ts [] none [] (by simp) (fun x hx => by cases hx) e
    (by simpa [extract_decode] using he)
  rw [List.nil_append] at h
  rcases h with ⟨-, ⟨t₁, ht₁, -, -, hs₁⟩, ⟨t₂, ht₂, hs₂⟩⟩
  constructor
  · intro t ht
    injection (ht.symm.trans ht₁) with h
    rw [h]
    exact hs₁
  · intro t ht
    injection (ht.symm.trans ht₂) with h
    rw [h]
    exact hs₂

/-- C8 amended, witness: a decode over a mislabeled boundary token followed
by a real token; the emitted span starts and ends away from the special
token. -/
theorem c8_amended_witness :
    (∀ t, ([⟨"<s>", "B-LOC", mkRat 9 10⟩, ⟨"Hà", "B-LOC", mkRat 9 10⟩] :
        List Token)[(⟨"Hà", "LOC", mkRat 9 10, 1, 1⟩ : RawSpan).start_pos]? = some t →
      isSpecialToken t.text = false) ∧
    (∀ t, ([⟨"<s>", "B-LOC", mkRat 9 10⟩, ⟨"Hà", "B-LOC", mkRat 9 10⟩] :
        List Token)[(⟨"Hà", "LOC", mkRat 9 10, 1, 1⟩ : RawSpan).end_pos]? = some t →
      isSpecialToken t.text = false) :=
  c8_amended_single_path_filters
    [⟨"<s>", "B-LOC", mkRat 9 10⟩, ⟨"Hà", "B-LOC", mkRat 9 10⟩]
    ⟨"Hà", "LOC", mkRat 9 10, 1, 1⟩ (by decide)

/-! ## C10: relation between the two decode paths -/

/-- C10 counterexample: the single-text and batch decode paths do not
produce identical raw spans — on the same input the single path emits text
"HàNội" (direct concatenation) while the batch path emits "Hà Nội"
(space-joined); their confidences (average vs min) differ as well. -/
theorem c10_counterexample_texts_differ :
    (extract_decode [⟨"Hà", "B-LOC", mkRat 9 10⟩, ⟨"Nội", "I-LOC", mkRat 88 100⟩]).map
        RawSpan.text ≠
      (process_decode [⟨"Hà", "B-LOC", mkRat 9 10⟩, ⟨"Nội", "I-LOC", mkRat 88 100⟩]).map
        RawSpan.text := by decide

/-- C10 amended: on token sequences free of special tokens, the two decode
paths emit the same number of spans with pairwise identical types and
start/end positions; span texts and confidences differ in general (direct
concatenation with marker-stripping vs space-joining; running average vs
min). -/
theorem c10_amended_positional_agreement (ts : List Token)
    (h : ∀ t ∈ ts, isSpecialToken t.text = false) :
    List.Forall₂ spanAligned (extract_decode ts) (process_decode ts) :=
  scan_align ts 0 none none [] [] h (by trivial) List.Forall₂.nil

/-- C10 amended, witness. -/
theorem c10_amended_witness :
    List.Forall₂ spanAligned
      (extract_decode [⟨"Hà", "B-LOC", mkRat 9 10⟩, ⟨"Nội", "I-LOC", mkRat 88 100⟩])
      (process_decode [⟨"Hà", "B-LOC", mkRat 9 10⟩, ⟨"Nội", "I-LOC", mkRat 88 100⟩]) :=
  c10_amended_positional_agreement
    [⟨"Hà", "B-LOC", mkRat 9 10⟩, ⟨"Nội", "I-LOC", mkRat 88 100⟩] (by decide)

/-! ## C4: unresolvable temporal text degrades without error -/

/-- C4: for every TIME/DATE entity whose lower-cased text matches none of
the relative-keyword patterns, the clock-time pattern, or the numeric-date
pattern, and whose fuzzy fallback parse fails (a ValueError, caught by the
except clause), temporal resolution returns the entity unchanged — no
normalized_time, no timestamp, and no exception. -/
theorem c4_unresolvable_entity_unchanged
    (fuzzy : String → Option PyDateTime) (now : PyDateTime) (e : TEntity)
    (hty : e.etype = "TIME" ∨ e.etype = "DATE")
    (h₁ : searchToday (lowerStr e.text).data = false)
    (h₂ : searchTomorrow (lowerStr e.text).data = false)
    (h₃ : searchNextWeek (lowerStr e.text).data = false)
    (h₄ : searchNextMonth (lowerStr e.text).data = false)
    (h₅ : dayTimeFind (lowerStr e.text).data = none)
    (h₆ : dateFind (lowerStr e.text).data = none)
    (h₇ : fuzzy (lowerStr e.text) = none) :
    process_time_entity fuzzy now e = e := by
  have hbool : (e.etype == "TIME" || e.etype == "DATE") = true := by
    rcases hty with h | h <;> simp [h]
  simp only [process_time_entity, hbool, Bool.not_true, Bool.false_eq_true, if_false,
    h₁, h₂, h₃, h₄, h₅, h₆, h₇]

/-- C4 witness: the spec's "qwerty123" scenario. -/
theorem c4_witness :
    process_time_entity (fun _ => none) ⟨2024, 1, 1, 12, 0, 0⟩
        ⟨"qwerty123", "DATE", mkRat 9 10, none, none⟩ =
      ⟨"qwerty123", "DATE", mkRat 9 10, none, none⟩ :=
  c4_unresolvable_entity_unchanged (fun _ => none) ⟨2024, 1, 1, 12, 0, 0⟩
    ⟨"qwerty123", "DATE", mkRat 9 10, none, none⟩ (Or.inr rfl)
    (by decide) (by decide) (by decide) (by decide) (by decide) (by decide) rfl

/-! ## C5: the "next month" branch of temporal resolution -/

set_option maxRecDepth 8000 in
/-- C5 counterexample: with reference instant 2024-02-01T00:00:00 and text
"tháng sau", the resolver produces 2024-03-02 (a fixed 30-day offset), not
the calendar-month increment 2024-03-01 that the claim asserts. -/
theorem c5_counterexample_thirty_day_offset :
    (process_time_entity (fun _ => none) ⟨2024, 2, 1, 0, 0, 0⟩
        ⟨"tháng sau", "DATE", mkRat 9 10, none, none⟩).normalized_time ≠
      some (calendarMonthIncrement ⟨2024, 2, 1, 0, 0, 0⟩) ∧
    (process_time_entity (fun _ => none) ⟨2024, 2, 1, 0, 0, 0⟩
        ⟨"tháng sau", "DATE", mkRat 9 10, none, none⟩).normalized_time =
      some (addDays ⟨2024, 2, 1, 0, 0, 0⟩ 30) :=
  ⟨by decide, by decide⟩

/-- C5 amended: for every TIME/DATE entity whose lower-cased text matches
the next-month pattern ("tháng sau"/"tháng tới") and none of the
earlier-precedence relative patterns, the resolved instant is the
reference instant advanced by a fixed 30-day offset (timedelta(days=30)),
not by a calendar-month increment; the calendar-month increment appears
only in VietnameseTimeProcessor.parse_relative_time, which this resolver
does not use. -/
theorem c5_amended_thirty_day_offset
    (fuzzy : String → Option PyDateTime) (now : PyDateTime) (e : TEntity)
    (hty : e.etype = "TIME" ∨ e.etype = "DATE")
    (h₁ : searchToday (lowerStr e.text).data = false)
    (h₂ : searchTomorrow (lowerStr e.text).data = false)
    (h₃ : searchNextWeek (lowerStr e.text).data = false)
    (h₄ : searchNextMonth (lowerStr e.text).data = true) :
    (process_time_entity fuzzy now e).normalized_time = some (addDays now 30) ∧
    (process_time_entity fuzzy now e).timestamp = some (toEpoch (addDays now 30)) := by
  have hbool : (e.etype == "TIME" || e.etype == "DATE") = true := by
    rcases hty with h | h <;> simp [h]
  refine ⟨?_, ?_⟩ <;>
    simp only [process_time_entity, hbool, Bool.not_true, Bool.false_eq_true, if_false,
      h₁, h₂, h₃, h₄, if_true, attachTime]

set_option maxRecDepth 8000 in
/-- C5 amended, witness. -/
theorem c5_amended_witness :
    (process_time_entity (fun _ => none) ⟨2024, 1, 15, 8, 30, 0⟩
        ⟨"tháng tới", "TIME", mkRat 9 10, none, none⟩).normalized_time =
      some (addDays ⟨2024, 1, 15, 8, 30, 0⟩ 30) ∧
    (process_time_entity (fun _ => none) ⟨2024, 1, 15, 8, 30, 0⟩
        ⟨"tháng tới", "TIME", mkRat 9 10, none, none⟩).timestamp =
      some (toEpoch (addDays ⟨2024, 1, 15, 8, 30, 0⟩ 30)) :=
  c5_amended_thirty_day_offset (fun _ => none) ⟨2024, 1, 15, 8, 30, 0⟩
    ⟨"tháng tới", "TIME", mkRat 9 10, none, none⟩ (Or.inl rfl)
    (by decide) (by decide) (by decide) (by decide)

/-! ## C3: failures in the recurrence stage raise instead of degrading -/

/-- C3 (the claim is right, the code is wrong): when recurrence-rule
generation fails — on a malformed descriptor lacking "frequency" the try
body raises KeyError; on any failing library call it raises whatever the
library raised — the except handler of generate_rrule evaluates the
undefined name `logger` and therefore raises NameError out of the
recurrence stage instead of returning None, and process_recurring_time
(which has no try) propagates it, so the entity is not returned with the
recurrence field simply omitted. -/
theorem c3_recurrence_failure_raises
    (lib : Freq → Option String → Except PyExc String) (nxt : String → List PyDateTime)
    (start : PyDateTime) (e : REntity) (ex : PyExc) :
    generate_rrule lib ⟨"daily", none, none⟩ start = Except.error PyExc.nameError ∧
    (e.normalized_time.isSome = true → (detect_recurrence e.text).isSome = true →
      (∀ f wd, lib f wd = Except.error ex) →
      process_recurring_time lib nxt e = Except.error PyExc.nameError) := by
  constructor
  · rfl
  · intro hnt hdet hlib
    cases hn : e.normalized_time with
    | none => rw [hn] at hnt; exact absurd hnt (by simp)
    | some nt =>
      cases hd : detect_recurrence e.text with
      | none => rw [hd] at hdet; exact absurd hdet (by simp)
      | some rec =>
        simp only [process_recurring_time, hn, hd, generate_rrule, hlib]

set_option maxRecDepth 4000 in
/-- C3 witness: a concrete recurring entity whose library call fails (as
getattr(rrule, "...") and rule._str() do); the stage raises NameError. -/
theorem c3_witness :
    process_recurring_time (fun _ _ => Except.error PyExc.attributeError) (fun _ => [])
        ⟨"mỗi ngày", "DATE", mkRat 9 10, some ⟨2024, 1, 1, 9, 0, 0⟩, some 0, none⟩ =
      Except.error PyExc.nameError :=
  (c3_recurrence_failure_raises (fun _ _ => Except.error PyExc.attributeError) (fun _ => [])
      ⟨2024, 1, 1, 9, 0, 0⟩
      ⟨"mỗi ngày", "DATE", mkRat 9 10, some ⟨2024, 1, 1, 9, 0, 0⟩, some 0, none⟩
      PyExc.attributeError).2 (by decide) (by decide) (fun f wd => rfl)

/-! ## C7: the rate-limit admission boundary -/

theorem burst_limit_ten_one_point_five : burst_limit_cfg 10 (3/2 : ℚ) = 15 := by
  have h : ((10 : ℕ) : ℚ) * (3/2) = 15 := by norm_num
  rw [burst_limit_cfg, h, pyIntTrunc]
  decide

set_option maxRecDepth 4000 in
/-- C7 counterexample: at 10 requests/minute with burst factor 1.5
(burst_limit 15), for 16 requests at distinct seconds inside one rolling
window the 15th AND the 16th admission checks both return admitted — the
pipeline counts the sorted set before adding the current request and admits
on count ≤ burst_limit — so the claim's "the 16th returns rejected" is
false. -/
theorem c7_counterexample_sixteenth_admitted :
    (run_limiter 60 (burst_limit_cfg 10 (3/2 : ℚ)) []
        ((List.range 16).map Int.ofNat))[14]? = some true ∧
    (run_limiter 60 (burst_limit_cfg 10 (3/2 : ℚ)) []
        ((List.range 16).map Int.ofNat))[15]? = some true := by
  rw [burst_limit_ten_one_point_five]
  exact ⟨by decide, by decide⟩

/-- C7 amended: with the limiter configured at 10 requests/minute and burst
factor 1.5, for any sequence of requests from one caller at strictly
increasing timestamps all within one rolling 60-second window, the 15th and
16th admission checks return admitted and the 17th returns rejected. -/
theorem c7_amended_seventeenth_rejected (ts : List Int)
    (hpw : List.Pairwise (fun a b => a < b) ts)
    (hwin : ∀ a ∈ ts, ∀ b ∈ ts, a - b < 60)
    (hlen : 17 ≤ ts.length) :
    (run_limiter 60 (burst_limit_cfg 10 (3/2 : ℚ)) [] ts)[14]? = some true ∧
    (run_limiter 60 (burst_limit_cfg 10 (3/2 : ℚ)) [] ts)[15]? = some true ∧
    (run_limiter 60 (burst_limit_cfg 10 (3/2 : ℚ)) [] ts)[16]? = some false := by
  rw [burst_limit_ten_one_point_five]
  have h := run_limiter_spec ts [] 15 (by simpa using hpw) (by simpa using hwin)
  rw [h]
  refine ⟨?_, ?_, ?_⟩
  · rw [List.getElem?_map, List.getElem?_range (show 14 < ts.length by omega)]
    decide
  · rw [List.getElem?_map, List.getElem?_range (show 15 < ts.length by omega)]
    decide
  · rw [List.getElem?_map, List.getElem?_range (show 16 < ts.length by omega)]
    decide

set_option maxRecDepth 4000 in
/-- C7 amended, witness: seventeen requests at seconds 0..16. -/
theorem c7_amended_witness :
    (run_limiter 60 (burst_limit_cfg 10 (3/2 : ℚ)) []
        ((List.range 17).map Int.ofNat))[14]? = some true ∧
    (run_limiter 60 (burst_limit_cfg 10 (3/2 : ℚ)) []
        ((List.range 17).map Int.ofNat))[15]? = some true ∧
    (run_limiter 60 (burst_limit_cfg 10 (3/2 : ℚ)) []
        ((List.range 17).map Int.ofNat))[16]? = some false :=
  c7_amended_seventeenth_rejected ((List.range 17).map Int.ofNat)
    (by decide) (by decide) (by decide)

/-! ## C9: recurrence detection order and short-circuit -/

/-- C9: for every input text and every weekday table, recurrence detection
returns the frequency of the first matching pattern in the declared order
daily, weekly, monthly, yearly (a single frequency, never a combination),
and when no frequency pattern matches it returns none for every weekday
table whatsoever — the weekday scan cannot influence (and is not needed
for) the not-recurring result. -/
theorem c9_first_frequency_wins (text : String)
    (tbl : List (String × (List Char → Bool))) :
    (∀ r, detect_recurrence_with tbl text = some r →
      ((r.rtype = "daily" ∧ r.frequency = Freq.daily ∧
          freqSearch "ngày".data (lowerStr text).data = true) ∨
        (r.rtype = "weekly" ∧ r.frequency = Freq.weekly ∧
          freqSearch "ngày".data (lowerStr text).data = false ∧
          freqSearch "tuần".data (lowerStr text).data = true) ∨
        (r.rtype = "monthly" ∧ r.frequency = Freq.monthly ∧
          freqSearch "ngày".data (lowerStr text).data = false ∧
          freqSearch "tuần".data (lowerStr text).data = false ∧
          freqSearch "tháng".data (lowerStr text).data = true) ∨
        (r.rtype = "yearly" ∧ r.frequency = Freq.yearly ∧
          freqSearch "ngày".data (lowerStr text).data = false ∧
          freqSearch "tuần".data (lowerStr text).data = false ∧
          freqSearch "tháng".data (lowerStr text).data = false ∧
          freqSearch "năm".data (lowerStr text).data = true))) ∧
    ((freqSearch "ngày".data (lowerStr text).data = false ∧
      freqSearch "tuần".data (lowerStr text).data = false ∧
      freqSearch "tháng".data (lowerStr text).data = false ∧
      freqSearch "năm".data (lowerStr text).data = false) →
      detect_recurrence_with tbl text = none) := by
  by_cases h1 : freqSearch "ngày".data (lowerStr text).data = true
  · have hd : detect_recurrence_with tbl text =
        some ⟨"daily", Freq.daily, scanWeekdays tbl (lowerStr text).data⟩ := by
      simp [detect_recurrence_with, recurring_patterns, List.find?, h1]
    refine ⟨fun r hr => ?_, fun hall => absurd h1 (by simp [hall.1])⟩
    rw [hd] at hr
    injection hr with hr
    subst hr
    exact Or.inl ⟨rfl, rfl, h1⟩
  · have h1f : freqSearch "ngày".data (lowerStr text).data = false := by simpa using h1
    by_cases h2 : freqSearch "tuần".data (lowerStr text).data = true
    · have hd : detect_recurrence_with tbl text =
          some ⟨"weekly", Freq.weekly, scanWeekdays tbl (lowerStr text).data⟩ := by
        simp [detect_recurrence_with, recurring_patterns, List.find?, h1f, h2]
      refine ⟨fun r hr => ?_, fun hall => absurd h2 (by simp [hall.2.1])⟩
      rw [hd] at hr
      injection hr with hr
      subst hr
      exact Or.inr (Or.inl ⟨rfl, rfl, h1f, h2⟩)
    · have h2f : freqSearch "tuần".data (lowerStr text).data = false := by simpa using h2
      by_cases h3 : freqSearch "tháng".data (lowerStr text).data = true
      · have hd : detect_recurrence_with tbl text =
            some ⟨"monthly", Freq.monthly, scanWeekdays tbl (lowerStr text).data⟩ := by
          simp [detect_recurrence_with, recurring_patterns, List.find?, h1f, h2f, h3]
        refine ⟨fun r hr => ?_, fun hall => absurd h3 (by simp [hall.2.2.1])⟩
        rw [hd] at hr
        injection hr with hr
        subst hr
        exact Or.inr (Or.inr (Or.inl ⟨rfl, rfl, h1f, h2f, h3⟩))
      · have h3f : freqSearch "tháng".data (lowerStr text).data = false := by simpa using h3
        by_cases h4 : freqSearch "năm".data (lowerStr text).data = true
        · have hd : detect_recurrence_with tbl text =
              some ⟨"yearly", Freq.yearly, scanWeekdays tbl (lowerStr text).data⟩ := by
            simp [detect_recurrence_with, recurring_patterns, List.find?, h1f, h2f, h3f, h4]
          refine ⟨fun r hr => ?_, fun hall => absurd h4 (by simp [hall.2.2.2])⟩
          rw [hd] at hr
          injection hr with hr
          subst hr
          exact Or.inr (Or.inr (Or.inr ⟨rfl, rfl, h1f, h2f, h3f, h4⟩))
        · have h4f : freqSearch "năm".data (lowerStr text).data = false := by simpa using h4
          have hd : detect_recurrence_with tbl text = none := by
            simp [detect_recurrence_with, recurring_patterns, List.find?, h1f, h2f, h3f, h4f]
          exact ⟨fun r hr => absurd (hd ▸ hr) (by simp), fun _ => hd⟩

set_option maxRecDepth 4000 in
/-- C9 witness: a non-recurring text yields none via the theorem. -/
theorem c9_witness :
    detect_recurrence_with weekday_patterns "họp lúc 15h30" = none :=
  (c9_first_frequency_wins "họp lúc 15h30" weekday_patterns).2
    ⟨by decide, by decide, by decide, by decide⟩
